import Mathlib

/-!
Verification of the template-driven field mapping engine of `its_easy`
(`src/its_easy/tour/pdf.py`): a schema-validated booking document is bound to
fixed print coordinates on a paper form, producing an ordered list of
(text, position) placements.

The Python source is shallowly embedded: dictionaries become association
lists (`List (String × Value)`), Python exceptions become `Except` errors,
and `datetime.date` becomes a record of numerals.  The cerberus validation
engine is an external library (only the schema literal
`BOOKING_DATA_SCHEMA` is in the source), so the validator is modelled from
the spec, specialised to that concrete schema.
-/

namespace ItsEasy

/-- Model of Python `datetime.date`: a calendar date. -/
structure Date where
  year : Nat
  month : Nat
  day : Nat
deriving DecidableEq, Repr

/-- Gregorian leap-year test, as used by `datetime`. -/
def Date.isLeap (y : Nat) : Bool :=
  y % 4 = 0 && (y % 100 != 0 || y % 400 = 0)

/-- Days in the months of a year (index 1..12), as in `datetime`. -/
def Date.daysInMonth (y m : Nat) : Nat :=
  if m = 2 then (if Date.isLeap y then 29 else 28)
  else if m = 4 || m = 6 || m = 9 || m = 11 then 30
  else 31

/-- Days in the full years strictly before year `y` (proleptic Gregorian). -/
def Date.daysBeforeYear (y : Nat) : Nat :=
  365 * (y - 1) + (y - 1) / 4 - (y - 1) / 100 + (y - 1) / 400

/-- Days in the full months of year `y` strictly before month `m`. -/
def Date.daysBeforeMonth (y m : Nat) : Nat :=
  (List.range m).foldl (fun acc k => if 1 ≤ k then acc + Date.daysInMonth y k else acc) 0

/-- Proleptic Gregorian ordinal of a date; `date(1, 1, 1).toordinal() = 1`. -/
def Date.toOrdinal (d : Date) : Nat :=
  Date.daysBeforeYear d.year + Date.daysBeforeMonth d.year d.month + d.day

/-- Model of Python `date.weekday()`: Monday is `0`, Sunday is `6`. -/
def Date.weekday (d : Date) : Nat :=
  (d.toOrdinal + 6) % 7

/-- Model of the Python values stored in a booking-data document tree:
scalars (`None`, `str`, `int`, `date`), dictionaries and lists. -/
inductive Value where
  | vnone
  | vstr (s : String)
  | vint (n : Int)
  | vdate (d : Date)
  | vdict (entries : List (String × Value))
  | vlist (items : List Value)

/-- A path segment into a nested dict/list structure: a dictionary key or a
list index (the `target_keys` elements of `create_texts`). -/
inductive Key where
  | str (s : String)
  | idx (n : Nat)
deriving DecidableEq, Repr

/-- First-match association-list lookup: Python `d[key]` on a `dict`,
returning `none` where Python raises `KeyError`. -/
def lookupEntry {α : Type} (name : String) : List (String × α) → Option α
  | [] => none
  | (k, v) :: rest => if k = name then some v else lookupEntry name rest

/-- Embedding of `get_deep_element` (pdf.py:387-396): descend a nested
value by a key path; any failed subscript (Python `KeyError` / `IndexError`
/ `TypeError`) is `none`. -/
def get_deep_element (v : Value) (keys : List Key) : Option Value :=
  match keys with
  | [] => some v
  | k :: rest =>
    match v, k with
    | .vdict es, .str name =>
      match lookupEntry name es with
      | some w => get_deep_element w rest
      | none => none
    | .vlist items, .idx i =>
      match items[i]? with
      | some w => get_deep_element w rest
      | none => none
    | _, _ => none

/-- Splitting accumulator for `splitOnDash`: walk the characters, cutting
at every `-`. -/
def splitCharsOnDash : List Char → List Char → List (List Char)
  | [], acc => [acc.reverse]
  | c :: rest, acc =>
    if c = '-' then acc.reverse :: splitCharsOnDash rest []
    else splitCharsOnDash rest (c :: acc)

/-- Model of Python `s.split('-')`: cut the string at every `-`; the
empty string yields `[""]`, and consecutive dashes yield empty parts,
exactly as in Python. -/
def splitOnDash (s : String) : List String :=
  (splitCharsOnDash s.toList []).map (fun cs => String.mk cs)

instance {ε α : Type} [DecidableEq ε] [DecidableEq α] : DecidableEq (Except ε α) := fun a b =>
  match a, b with
  | .ok x, .ok y =>
    if h : x = y then .isTrue (by rw [h]) else .isFalse (by intro hc; cases hc; exact h rfl)
  | .error x, .error y =>
    if h : x = y then .isTrue (by rw [h]) else .isFalse (by intro hc; cases hc; exact h rfl)
  | .ok _, .error _ => .isFalse (by intro hc; cases hc)
  | .error _, .ok _ => .isFalse (by intro hc; cases hc)

/-- Embedding of class `DrawingPosition` (pdf.py:18-31).  The subclass
`NoPosition` (pdf.py:34-40) is modelled by the `drawable` tag: `True` for
`DrawingPosition` itself, `False` for `NoPosition`. -/
structure DrawingPosition where
  x : Int
  y : Int
  font_size : Int
  char_space : Int
  drawable : Bool
deriving DecidableEq, Repr

/-- `DrawingPosition(x, y, font_size, char_space)` constructor call. -/
def mkPos (x y font_size char_space : Int) : DrawingPosition :=
  ⟨x, y, font_size, char_space, true⟩

/-- `NoPosition()`: `DrawingPosition(-1, -1, -1)` with `is_drawable` false. -/
def NoPosition : DrawingPosition :=
  ⟨-1, -1, -1, 0, false⟩

/-- `DrawingPosition.is_drawable` / `NoPosition.is_drawable`. -/
def DrawingPosition.is_drawable (p : DrawingPosition) : Bool :=
  p.drawable

/-- A node of the static position tree `BOOKING_DATA_POSITIONS`: a single
drawing position, a dict of named sub-nodes, or a list of sub-nodes. -/
inductive PosNode where
  | leaf (p : DrawingPosition)
  | dict (entries : List (String × PosNode))
  | list (items : List PosNode)

/-- `get_deep_element` specialised to the position tree (the Python
function is duck-typed and is applied to both trees). -/
def get_deep_pos (v : PosNode) (keys : List Key) : Option PosNode :=
  match keys with
  | [] => some v
  | k :: rest =>
    match v, k with
    | .dict es, .str name =>
      match lookupEntry name es with
      | some w => get_deep_pos w rest
      | none => none
    | .list items, .idx i =>
      match items[i]? with
      | some w => get_deep_pos w rest
      | none => none
    | _, _ => none

/-- Embedding of class `TextOnPage` (pdf.py:43-49): one placement. -/
structure TextOnPage where
  text : String
  position : DrawingPosition
deriving DecidableEq, Repr

/-- Embedding of the static position tree `BOOKING_DATA_POSITIONS`
(pdf.py:172-308), transcribed coordinate for coordinate.  Python
constructor defaults are spelled out: `font_size` defaults to `10` and
`char_space` to `0`. -/
def BOOKING_DATA_POSITIONS : PosNode :=
  .dict [
    ("依頼日", .dict [
      ("heisei_year", .leaf (mkPos 62 747 9 0)),
      ("month", .leaf (mkPos 84 747 9 0)),
      ("day", .leaf (mkPos 104 747 9 0))]),
    ("利用代表者", .dict [
      ("利用代表者名", .leaf (mkPos 180 712 10 0)),
      ("フリガナ", .leaf (mkPos 180 732 10 0)),
      ("性別", .dict [
        ("男", .leaf (mkPos 501 711 16 0)),
        ("女", .leaf (mkPos 535 711 16 0))]),
      ("勤務先名", .leaf (mkPos 180 690 9 0)),
      ("代表利用者の方の保険証", .dict [
        ("記号", .leaf (mkPos 490 690 10 2)),
        ("番号", .leaf (mkPos 540 690 10 2))]),
      ("連絡先電話番号", .list [
        .dict [
          ("番号", .list [.leaf (mkPos 225 668 10 2), .leaf (mkPos 290 668 10 2), .leaf (mkPos 360 668 10 2)]),
          ("種別", .dict [
            ("携帯", .leaf (mkPos 441 666 16 0)),
            ("自宅", .leaf (mkPos 465 666 16 0)),
            ("勤務先", .leaf (mkPos 493 666 16 0))])],
        .dict [
          ("番号", .list [.leaf (mkPos 225 647 10 2), .leaf (mkPos 290 647 10 2), .leaf (mkPos 360 647 10 2)]),
          ("種別", .dict [
            ("携帯", .leaf (mkPos 441 645 16 0)),
            ("自宅", .leaf (mkPos 465 645 16 0)),
            ("勤務先", .leaf (mkPos 493 645 16 0))])]])]),
    ("請求書・旅行書類送付先", .dict [
      ("請求書送付先住所", .dict [
        ("種別", .dict [
          ("自宅", .leaf (mkPos 144 606 16 0)),
          ("勤務先", .leaf (mkPos 177 606 16 0))]),
        ("郵便番号", .leaf (mkPos 217 609 8 2)),
        ("住所", .leaf (mkPos 266 609 8 0))]),
      ("旅行書類等送付先住所", .dict [
        ("種別", .dict [
          ("自宅", .leaf (mkPos 144 585 16 0)),
          ("勤務先", .leaf (mkPos 177 585 16 0))]),
        ("郵便番号", .leaf (mkPos 217 589 8 2)),
        ("住所", .leaf (mkPos 266 589 8 0))])]),
    ("利用希望コース", .dict [
      ("旅行期間", .dict [
        ("開始日", .dict [
          ("year", .leaf (mkPos 87 556 10 0)),
          ("month", .leaf (mkPos 135 556 10 0)),
          ("day", .leaf (mkPos 170 556 10 0)),
          ("dow", .leaf (mkPos 204 556 10 0))]),
        ("終了日", .dict [
          ("year", .leaf (mkPos 242 556 10 0)),
          ("month", .leaf (mkPos 290 556 10 0)),
          ("day", .leaf (mkPos 322 556 10 0)),
          ("dow", .leaf (mkPos 355 556 10 0))])]),
      ("ツアーコード", .leaf (mkPos 445 556 10 2)),
      ("ツアー名", .leaf (mkPos 87 536 10 0)),
      ("パンフレット名／頁", .leaf (mkPos 440 536 10 0)),
      ("利用ホテル", .list [
        .dict [
          ("宿泊開始日", .dict [
            ("month", .leaf (mkPos 85 516 9 0)),
            ("day", .leaf (mkPos 108 516 9 0))]),
          ("泊数", .leaf (mkPos 143 516 9 0)),
          ("ホテル名", .leaf (mkPos 81 501 9 0)),
          ("食事", .dict [
            ("朝食", .leaf (mkPos 83 481 16 0)),
            ("朝夕食", .leaf (mkPos 114 481 16 0)),
            ("食事なし", .leaf (mkPos 154 481 16 0))]),
          ("タバコ", .dict [
            ("禁煙", .leaf (mkPos 192 481 16 0)),
            ("喫煙", .leaf (mkPos 217 481 16 0)),
            ("どちらでも", .leaf NoPosition)])],
        .dict [
          ("宿泊開始日", .dict [
            ("month", .leaf (mkPos 249 516 9 0)),
            ("day", .leaf (mkPos 272 516 9 0))]),
          ("泊数", .leaf (mkPos 307 516 9 0)),
          ("ホテル名", .leaf (mkPos 245 501 9 0)),
          ("食事", .dict [
            ("朝食", .leaf (mkPos 251 481 16 0)),
            ("朝夕食", .leaf (mkPos 283 481 16 0)),
            ("食事なし", .leaf (mkPos 318 481 16 0))]),
          ("タバコ", .dict [
            ("禁煙", .leaf (mkPos 361 481 16 0)),
            ("喫煙", .leaf (mkPos 386 481 16 0)),
            ("どちらでも", .leaf NoPosition)])],
        .dict [
          ("宿泊開始日", .dict [
            ("month", .leaf (mkPos 415 516 9 0)),
            ("day", .leaf (mkPos 438 516 9 0))]),
          ("泊数", .leaf (mkPos 473 516 9 0)),
          ("ホテル名", .leaf (mkPos 412 501 9 0)),
          ("食事", .dict [
            ("朝食", .leaf (mkPos 415 481 16 0)),
            ("朝夕食", .leaf (mkPos 448 481 16 0)),
            ("食事なし", .leaf (mkPos 488 481 16 0))]),
          ("タバコ", .dict [
            ("禁煙", .leaf (mkPos 526 481 16 0)),
            ("喫煙", .leaf (mkPos 551 481 16 0)),
            ("どちらでも", .leaf NoPosition)])]]),
      ("参加人数", .dict [
        ("大人", .leaf (mkPos 125 450 10 0)),
        ("子供", .leaf (mkPos 125 436 10 0)),
        ("幼児", .leaf (mkPos 125 421 10 0))])])]

/-- The runtime errors the Python core can raise while resolving a
document: formatter contract violations (`RuntimeError` / `AssertionError`,
the spec's `FormatError`) and failed tree lookups (`KeyError` /
`IndexError`, the spec's `PathLookupError`). -/
inductive PdfError where
  | formatError (msg : String)
  | lookupError (msg : String)
deriving DecidableEq, Repr

/-- A field formatter: the shape of the `creator` callables passed to
`create_texts` — a data value and a position node give placements, or a
raised error. -/
abbrev Formatter := Value → PosNode → Except PdfError (List TextOnPage)

/-- Zero-padding used by `str(date)` (ISO format). -/
def padNum (width n : Nat) : String :=
  let s := toString n
  String.mk (List.replicate (width - s.length) '0') ++ s

/-- Python `str(value)` for the scalar values the default formatter
receives (only scalars reach it on the fixed field plan); `None` has
already been replaced by `''` in `create_text`. -/
def valueToStr : Value → String
  | .vnone => ""
  | .vstr s => s
  | .vint n => toString n
  | .vdate d => padNum 4 d.year ++ "-" ++ padNum 2 d.month ++ "-" ++ padNum 2 d.day
  | .vdict _ => ""
  | .vlist _ => ""

/-- Embedding of `create_text` (pdf.py:399-401), the default formatter:
`None` becomes the empty string, everything else is stringified and paired
with the single position at the path.  The plan only applies it at leaf
positions; a non-leaf position is a configuration error. -/
def create_text (v : Value) (pos : PosNode) : Except PdfError (List TextOnPage) :=
  match pos with
  | .leaf p =>
    match v with
    | .vnone => .ok [⟨"", p⟩]
    | w => .ok [⟨valueToStr w, p⟩]
  | _ => .error (.lookupError "default formatter expects a single position")

/-- Look up a named sub-position that must be a single drawing position
(Python `positions[name]` followed by use as a `DrawingPosition`). -/
def subPos (entries : List (String × PosNode)) (name : String) : Except PdfError DrawingPosition :=
  match lookupEntry name entries with
  | some (.leaf p) => .ok p
  | some _ => .error (.lookupError name)
  | none => .error (.lookupError name)

/-- Embedding of `create_booking_date_text` (pdf.py:404-410): the era
formatter.  `heisei_year = booking_date.year - 1988` (Python `int`
arithmetic, so the result may be negative) is emitted together with month
and day at the named sub-positions. -/
def create_booking_date_text (v : Value) (pos : PosNode) : Except PdfError (List TextOnPage) :=
  match v, pos with
  | .vdate d, .dict ps => do
    let heisei_year : Int := (d.year : Int) - 1988
    let hp ← subPos ps "heisei_year"
    let mp ← subPos ps "month"
    let dp ← subPos ps "day"
    .ok [⟨toString heisei_year, hp⟩, ⟨toString d.month, mp⟩, ⟨toString d.day, dp⟩]
  | .vdate _, _ => .error (.lookupError "booking date expects named sub-positions")
  | _, _ => .error (.formatError "booking date expects a date value")

/-- Embedding of `date_to_dow` (pdf.py:413-414): Monday-first fixed
7-element weekday label table indexed by `date.weekday()`. -/
def date_to_dow (d : Date) : String :=
  ["月", "火", "水", "木", "金", "土", "日"].getD d.weekday ""

/-- Embedding of `create_duration_text` (pdf.py:417-423): year, month,
day and weekday label at four named sub-positions. -/
def create_duration_text (v : Value) (pos : PosNode) : Except PdfError (List TextOnPage) :=
  match v, pos with
  | .vdate d, .dict ps => do
    let yp ← subPos ps "year"
    let mp ← subPos ps "month"
    let dp ← subPos ps "day"
    let wp ← subPos ps "dow"
    .ok [⟨toString d.year, yp⟩, ⟨toString d.month, mp⟩, ⟨toString d.day, dp⟩, ⟨date_to_dow d, wp⟩]
  | .vdate _, _ => .error (.lookupError "duration date expects named sub-positions")
  | _, _ => .error (.formatError "duration date expects a date value")

/-- Embedding of `create_hotel_date_text` (pdf.py:426-430): month and day
at two named sub-positions. -/
def create_hotel_date_text (v : Value) (pos : PosNode) : Except PdfError (List TextOnPage) :=
  match v, pos with
  | .vdate d, .dict ps => do
    let mp ← subPos ps "month"
    let dp ← subPos ps "day"
    .ok [⟨toString d.month, mp⟩, ⟨toString d.day, dp⟩]
  | .vdate _, _ => .error (.lookupError "hotel date expects named sub-positions")
  | _, _ => .error (.formatError "hotel date expects a date value")

/-- The first-match scan of `generate_selection_creator`'s inner loop:
walk `selectable_items` and on the item equal to `text`, place the mark
glyph at that item's registered position. -/
def selectionScan (text : String) (ps : List (String × PosNode)) : List String → Except PdfError (List TextOnPage)
  | [] => .error (.formatError "value is not among the selectable items")
  | item :: rest =>
    if text = item then
      match subPos ps item with
      | .ok p => .ok [⟨"○", p⟩]
      | .error e => .error e
    else
      selectionScan text ps rest

/-- Embedding of `generate_selection_creator` (pdf.py:433-439): given the
allowed items, returns the formatter that places a single `○` mark at the
position keyed by the selected value; a value not among the items raises
(`RuntimeError`, the spec's `FormatError`).  A non-string value never
equals any item, so it also falls through to the error. -/
def generate_selection_creator (selectable_items : List String) : Formatter :=
  fun v pos =>
    match v, pos with
    | .vstr text, .dict ps => selectionScan text ps selectable_items
    | .vstr _, _ => .error (.lookupError "selection expects a mapping of positions")
    | _, _ => .error (.formatError "value is not among the selectable items")

/-- Embedding of `create_phone_number_text` (pdf.py:442-446): split on the
fixed delimiter `-`; the `assert len(...) == 3` is the `formatError`
branch; then pair parts 0..2 with positions 0..2 in order. -/
def create_phone_number_text (v : Value) (pos : PosNode) : Except PdfError (List TextOnPage) :=
  match v, pos with
  | .vstr text, .list ps =>
    match splitOnDash text, ps with
    | [a, b, c], .leaf p0 :: .leaf p1 :: .leaf p2 :: _ =>
      .ok [⟨a, p0⟩, ⟨b, p1⟩, ⟨c, p2⟩]
    | [_, _, _], _ => .error (.lookupError "phone number expects three positions")
    | _, _ => .error (.formatError "phone number must split into 3 parts")
  | .vstr _, _ => .error (.lookupError "phone number expects a list of positions")
  | _, _ => .error (.formatError "phone number expects a string value")

/-- Embedding of `create_texts` (pdf.py:449-452): fetch the data element
and the position element at the same path, then apply the formatter. -/
def create_texts (data : Value) (target_keys : List Key) (creator : Formatter) : Except PdfError (List TextOnPage) :=
  match get_deep_element data target_keys with
  | none => .error (.lookupError "data path lookup failed")
  | some de =>
    match get_deep_pos BOOKING_DATA_POSITIONS target_keys with
    | none => .error (.lookupError "position path lookup failed")
    | some pe => creator de pe

/-- One entry of the field plan: a path and the formatter bound to it. -/
abbrev PlanEntry := List Key × Formatter

/-- The fixed plan entries of `booking_data_dict_to_texts` before the
hotel loop (pdf.py:346-373), in source order. -/
def planHead : List PlanEntry := [
  ([.str "依頼日"], create_booking_date_text),
  ([.str "利用代表者", .str "利用代表者名"], create_text),
  ([.str "利用代表者", .str "フリガナ"], create_text),
  ([.str "利用代表者", .str "性別"], generate_selection_creator ["男", "女"]),
  ([.str "利用代表者", .str "勤務先名"], create_text),
  ([.str "利用代表者", .str "代表利用者の方の保険証", .str "記号"], create_text),
  ([.str "利用代表者", .str "代表利用者の方の保険証", .str "番号"], create_text),
  ([.str "利用代表者", .str "連絡先電話番号", .idx 0, .str "番号"], create_phone_number_text),
  ([.str "利用代表者", .str "連絡先電話番号", .idx 0, .str "種別"], generate_selection_creator ["携帯", "自宅", "勤務先"]),
  ([.str "利用代表者", .str "連絡先電話番号", .idx 1, .str "番号"], create_phone_number_text),
  ([.str "利用代表者", .str "連絡先電話番号", .idx 1, .str "種別"], generate_selection_creator ["携帯", "自宅", "勤務先"]),
  ([.str "請求書・旅行書類送付先", .str "請求書送付先住所", .str "種別"], generate_selection_creator ["自宅", "勤務先"]),
  ([.str "請求書・旅行書類送付先", .str "請求書送付先住所", .str "郵便番号"], create_text),
  ([.str "請求書・旅行書類送付先", .str "請求書送付先住所", .str "住所"], create_text),
  ([.str "請求書・旅行書類送付先", .str "旅行書類等送付先住所", .str "種別"], generate_selection_creator ["自宅", "勤務先"]),
  ([.str "請求書・旅行書類送付先", .str "旅行書類等送付先住所", .str "郵便番号"], create_text),
  ([.str "請求書・旅行書類送付先", .str "旅行書類等送付先住所", .str "住所"], create_text),
  ([.str "利用希望コース", .str "旅行期間", .str "開始日"], create_duration_text),
  ([.str "利用希望コース", .str "旅行期間", .str "終了日"], create_duration_text),
  ([.str "利用希望コース", .str "ツアーコード"], create_text),
  ([.str "利用希望コース", .str "ツアー名"], create_text),
  ([.str "利用希望コース", .str "パンフレット名／頁"], create_text)]

/-- The plan entries of one iteration of the hotel loop
(pdf.py:375-379) for list index `i`, in source order. -/
def hotelGroup (i : Nat) : List PlanEntry := [
  ([.str "利用希望コース", .str "利用ホテル", .idx i, .str "宿泊開始日"], create_hotel_date_text),
  ([.str "利用希望コース", .str "利用ホテル", .idx i, .str "泊数"], create_text),
  ([.str "利用希望コース", .str "利用ホテル", .idx i, .str "ホテル名"], create_text),
  ([.str "利用希望コース", .str "利用ホテル", .idx i, .str "食事"], generate_selection_creator ["朝食", "朝夕食", "食事なし"]),
  ([.str "利用希望コース", .str "利用ホテル", .idx i, .str "タバコ"], generate_selection_creator ["禁煙", "喫煙", "どちらでも"])]

/-- The fixed plan entries after the hotel loop (pdf.py:380-382). -/
def planTail : List PlanEntry := [
  ([.str "利用希望コース", .str "参加人数", .str "大人"], create_text),
  ([.str "利用希望コース", .str "参加人数", .str "子供"], create_text),
  ([.str "利用希望コース", .str "参加人数", .str "幼児"], create_text)]

/-- Run a segment of plan entries in order, concatenating the produced
placements; the first raised error aborts (Python exception propagation
out of `booking_data_dict_to_texts`). -/
def resolvePlan (d : Value) : List PlanEntry → Except PdfError (List TextOnPage)
  | [] => .ok []
  | (keys, f) :: rest =>
    match create_texts d keys f with
    | .error e => .error e
    | .ok ts =>
      match resolvePlan d rest with
      | .error e => .error e
      | .ok rs => .ok (ts ++ rs)

/-- The hotel-list access `booking_data['利用希望コース']['利用ホテル']`
whose `len` drives the hotel loop (pdf.py:374). -/
def getHotelList (d : Value) : Except PdfError (List Value) :=
  match get_deep_element d [.str "利用希望コース", .str "利用ホテル"] with
  | some (.vlist items) => .ok items
  | _ => .error (.lookupError "hotel list lookup failed")

/-- Embedding of `booking_data_dict_to_texts` (pdf.py:342-384): the field
plan head, then one `hotelGroup` per actual hotel-list index, then the
tail, all concatenated in plan order. -/
def booking_data_dict_to_texts (d : Value) : Except PdfError (List TextOnPage) :=
  match resolvePlan d planHead with
  | .error e => .error e
  | .ok a =>
    match getHotelList d with
    | .error e => .error e
    | .ok hotels =>
      match resolvePlan d ((List.range hotels.length).flatMap hotelGroup) with
      | .error e => .error e
      | .ok b =>
        match resolvePlan d planTail with
        | .error e => .error e
        | .ok c => .ok (a ++ (b ++ c))

/-- The whole field plan for a document whose hotel list has `k`
elements: exactly the paths `booking_data_dict_to_texts` visits. -/
def fullPlan (k : Nat) : List PlanEntry :=
  planHead ++ (List.range k).flatMap hotelGroup ++ planTail

/-- Model of the drawing loop of `add_text_on_page` (pdf.py:474-497): the
canvas receives exactly the placements whose position `is_drawable`; the
`continue` skips the non-drawable sentinel placements. -/
def drawnTexts (texts : List TextOnPage) : List TextOnPage :=
  texts.filter (fun t => t.position.is_drawable)

/-! ## Schema validation

`validate_booking_data` (pdf.py:334-339) delegates to the external
cerberus library: `Validator(BOOKING_DATA_SCHEMA).validated(doc)`.  Only
the schema literal (pdf.py:52-169) is in the source, so the engine is
modelled from the spec (§4.1): normalization injects defaults for absent
optional fields, then every rule across the whole tree is checked and all
violations are collected before failing; on success the normalized
document is returned.  The model below is that engine specialised to
`BOOKING_DATA_SCHEMA`, field by field. -/

/-- A field-level violation, following the spec's taxonomy
(`TypeMismatch`, `ConstraintViolation`, `MissingField`), each carrying
the offending path. -/
inductive VError where
  | missingField (path : List Key)
  | typeMismatch (path : List Key)
  | constraintViolation (path : List Key)
deriving DecidableEq, Repr

/-- The two regex constraints appearing in `BOOKING_DATA_SCHEMA`. -/
inductive Rgx where
  | phoneNumber
  | zipcode
deriving DecidableEq, Repr

/-- Modelled from the spec: regex matching for the two anchored patterns
of the schema, with Python `\d` modelled as ASCII digits.
`^\d+-\d+-\d+$` holds exactly when the string splits on `-` into three
nonempty digit runs; `^\d{3}-\d{4}$` exactly when it splits into a
3-digit and a 4-digit run. -/
def Rgx.matches : Rgx → String → Bool
  | .phoneNumber, s =>
    match splitOnDash s with
    | [a, b, c] => !a.isEmpty && a.toList.all Char.isDigit && !b.isEmpty && b.toList.all Char.isDigit
        && !c.isEmpty && c.toList.all Char.isDigit
    | _ => false
  | .zipcode, s =>
    match splitOnDash s with
    | [a, b] => a.length = 3 && a.toList.all Char.isDigit && b.length = 4 && b.toList.all Char.isDigit
    | _ => false

/-- Modelled from the spec: the check of one string field — presence if
required, type, then the optional `allowed` / `regex` / `maxlength`
rules, collecting every violation. -/
def checkString (path : List Key) (requiredF : Bool) (es : List (String × Value)) (name : String)
    (allowed : Option (List String)) (rgx : Option Rgx) (maxlength : Option Nat) : List VError :=
  match lookupEntry name es with
  | none => if requiredF then [.missingField (path ++ [.str name])] else []
  | some (.vstr s) =>
    (match allowed with
     | some items => if s ∈ items then [] else [.constraintViolation (path ++ [.str name])]
     | none => []) ++
    (match rgx with
     | some r => if r.matches s then [] else [.constraintViolation (path ++ [.str name])]
     | none => []) ++
    (match maxlength with
     | some m => if s.length ≤ m then [] else [.constraintViolation (path ++ [.str name])]
     | none => [])
  | some _ => [.typeMismatch (path ++ [.str name])]

/-- Modelled from the spec: the check of one integer field — presence if
required, type, optional `min`. -/
def checkInt (path : List Key) (requiredF : Bool) (es : List (String × Value)) (name : String)
    (minv : Option Int) : List VError :=
  match lookupEntry name es with
  | none => if requiredF then [.missingField (path ++ [.str name])] else []
  | some (.vint n) =>
    match minv with
    | some m => if m ≤ n then [] else [.constraintViolation (path ++ [.str name])]
    | none => []
  | some _ => [.typeMismatch (path ++ [.str name])]

/-- Modelled from the spec: the check of one date field — presence if
required and type. -/
def checkDate (path : List Key) (requiredF : Bool) (es : List (String × Value)) (name : String) : List VError :=
  match lookupEntry name es with
  | none => if requiredF then [.missingField (path ++ [.str name])] else []
  | some (.vdate _) => []
  | some _ => [.typeMismatch (path ++ [.str name])]

/-- Modelled from the spec: the check of one nested-dict field —
presence if required, type, then the sub-schema's checks on the nested
entries. -/
def checkDict (path : List Key) (requiredF : Bool) (es : List (String × Value)) (name : String)
    (sub : List Key → List (String × Value) → List VError) : List VError :=
  match lookupEntry name es with
  | none => if requiredF then [.missingField (path ++ [.str name])] else []
  | some (.vdict ds) => sub (path ++ [.str name]) ds
  | some _ => [.typeMismatch (path ++ [.str name])]

/-- The per-index item checks of a list field, starting at index `i`. -/
def checkItems (subItem : List Key → Value → List VError) (path : List Key) (name : String) :
    Nat → List Value → List VError
  | _, [] => []
  | i, v :: rest =>
    subItem (path ++ [.str name, .idx i]) v ++ checkItems subItem path name (i + 1) rest

/-- Modelled from the spec: the check of one list field — presence if
required, type, `minlength` / `maxlength` bounds, then the item schema on
each element at its index. -/
def checkList (path : List Key) (requiredF : Bool) (es : List (String × Value)) (name : String)
    (minl maxl : Nat) (subItem : List Key → Value → List VError) : List VError :=
  match lookupEntry name es with
  | none => if requiredF then [.missingField (path ++ [.str name])] else []
  | some (.vlist items) =>
    (if minl ≤ items.length then [] else [.constraintViolation (path ++ [.str name])]) ++
    (if items.length ≤ maxl then [] else [.constraintViolation (path ++ [.str name])]) ++
    checkItems subItem path name 0 items
  | some _ => [.typeMismatch (path ++ [.str name])]

/-- A list item that must itself be a dict with the given sub-schema. -/
def checkDictItem (sub : List Key → List (String × Value) → List VError)
    (path : List Key) (v : Value) : List VError :=
  match v with
  | .vdict ds => sub path ds
  | _ => [.typeMismatch path]

/-- Schema sub-tree `代表利用者の方の保険証` (pdf.py:62-69). -/
def checkHokensho (path : List Key) (es : List (String × Value)) : List VError :=
  checkInt path true es "記号" (some 0) ++ checkInt path true es "番号" (some 0)

/-- Item schema of `連絡先電話番号` (pdf.py:75-82). -/
def checkPhoneItem (path : List Key) (es : List (String × Value)) : List VError :=
  checkString path true es "番号" none (some .phoneNumber) (some 13) ++
  checkString path true es "種別" (some ["携帯", "自宅", "勤務先"]) none none

/-- Schema sub-tree `利用代表者` (pdf.py:54-86). -/
def checkDaihyosha (path : List Key) (es : List (String × Value)) : List VError :=
  checkString path true es "利用代表者名" none none none ++
  checkString path true es "フリガナ" none none none ++
  checkString path true es "性別" (some ["男", "女"]) none none ++
  checkString path true es "勤務先名" none none none ++
  checkDict path true es "代表利用者の方の保険証" checkHokensho ++
  checkList path true es "連絡先電話番号" 2 2 (checkDictItem checkPhoneItem)

/-- Address sub-schema shared by both 送付先 fields (pdf.py:91-108). -/
def checkAddress (path : List Key) (es : List (String × Value)) : List VError :=
  checkString path true es "種別" (some ["自宅", "勤務先"]) none none ++
  checkString path true es "郵便番号" none (some .zipcode) none ++
  checkString path true es "住所" none none none

/-- Schema sub-tree `請求書・旅行書類送付先` (pdf.py:87-110). -/
def checkSofusaki (path : List Key) (es : List (String × Value)) : List VError :=
  checkDict path true es "請求書送付先住所" checkAddress ++
  checkDict path true es "旅行書類等送付先住所" checkAddress

/-- Schema sub-tree `旅行期間` (pdf.py:115-122). -/
def checkRyokoKikan (path : List Key) (es : List (String × Value)) : List VError :=
  checkDate path true es "開始日" ++ checkDate path true es "終了日"

/-- Item schema of `利用ホテル` (pdf.py:131-141); `タバコ` has a default,
so it is not required. -/
def checkHotelItem (path : List Key) (es : List (String × Value)) : List VError :=
  checkDate path true es "宿泊開始日" ++
  checkInt path true es "泊数" none ++
  checkString path true es "ホテル名" none none none ++
  checkString path true es "食事" (some ["朝食", "朝夕食", "食事なし"]) none none ++
  checkString path false es "タバコ" (some ["禁煙", "喫煙", "どちらでも"]) none none

/-- Schema sub-tree `参加人数` (pdf.py:143-151); all fields defaulted. -/
def checkSanka (path : List Key) (es : List (String × Value)) : List VError :=
  checkInt path false es "大人" none ++
  checkInt path false es "子供" none ++
  checkInt path false es "幼児" none

/-- Schema sub-tree `利用希望コース` (pdf.py:111-168). -/
def checkCourse (path : List Key) (es : List (String × Value)) : List VError :=
  checkDict path true es "旅行期間" checkRyokoKikan ++
  checkString path true es "ツアーコード" none none none ++
  checkString path true es "ツアー名" none none none ++
  checkString path false es "パンフレット名／頁" none none none ++
  checkList path true es "利用ホテル" 1 3 (checkDictItem checkHotelItem) ++
  checkDict path true es "参加人数" checkSanka

/-- Modelled from the spec: all rule checks of `BOOKING_DATA_SCHEMA`
(pdf.py:52-169) over a (normalized) document, collecting every violation
across the whole tree; unknown keys are ignored. -/
def checkBooking (es : List (String × Value)) : List VError :=
  checkDate [] false es "依頼日" ++
  checkDict [] true es "利用代表者" checkDaihyosha ++
  checkDict [] true es "請求書・旅行書類送付先" checkSofusaki ++
  checkDict [] true es "利用希望コース" checkCourse

/-- Inject a default: keep the entries unchanged when the key is present,
append the defaulted entry otherwise. -/
def withDefault (es : List (String × Value)) (name : String) (v : Value) : List (String × Value) :=
  if (lookupEntry name es).isSome then es else es ++ [(name, v)]

/-- Apply a normalizer to the value of one named entry (all occurrences),
leaving every other entry untouched. -/
def mapEntry : List (String × Value) → String → (Value → Value) → List (String × Value)
  | [], _, _ => []
  | (k, v) :: rest, name, f =>
    if k = name then (k, f v) :: mapEntry rest name f
    else (k, v) :: mapEntry rest name f

/-- Model of `date.today()` evaluated once when the schema literal is
built (pdf.py:53); the concrete value is irrelevant to the theorems. -/
def TODAY : Date := ⟨2019, 1, 1⟩

/-- Normalization of one `利用ホテル` item: inject the `タバコ` default
`'どちらでも'`; the other fields have no defaults. -/
def normalizeHotelItem (v : Value) : Value :=
  match v with
  | .vdict es => .vdict (withDefault es "タバコ" (.vstr "どちらでも"))
  | w => w

/-- Normalization of the `利用ホテル` list value. -/
def normalizeHotelListVal (v : Value) : Value :=
  match v with
  | .vlist items => .vlist (items.map normalizeHotelItem)
  | w => w

/-- Normalization of `参加人数`: inject the three integer defaults. -/
def normalizeSanka (v : Value) : Value :=
  match v with
  | .vdict es =>
    .vdict (withDefault (withDefault (withDefault es "大人" (.vint 1)) "子供" (.vint 0)) "幼児" (.vint 0))
  | w => w

/-- Normalization of `利用希望コース`: normalize the hotel list and
`参加人数`, and inject the `パンフレット名／頁` default `''`. -/
def normalizeCourse (v : Value) : Value :=
  match v with
  | .vdict es =>
    .vdict (withDefault (mapEntry (mapEntry es "利用ホテル" normalizeHotelListVal) "参加人数" normalizeSanka)
      "パンフレット名／頁" (.vstr ""))
  | w => w

/-- Modelled from the spec: normalization of a whole booking document —
defaults are injected for absent optional fields at every level
(`依頼日`, `パンフレット名／頁`, `参加人数`'s three counts, each hotel's
`タバコ`); present fields and unknown keys are kept, in order. -/
def normalizeBooking (es : List (String × Value)) : List (String × Value) :=
  withDefault (mapEntry es "利用希望コース" normalizeCourse) "依頼日" (.vdate TODAY)

/-- Embedding of `validate_booking_data` (pdf.py:334-339), with the
cerberus engine modelled from the spec: normalize, then check every rule;
a nonempty violation list is the raised `RuntimeError` carrying
`validator.errors`, success returns the normalized document. -/
def validate_booking_data (es : List (String × Value)) : Except (List VError) (List (String × Value)) :=
  if checkBooking (normalizeBooking es) = [] then .ok (normalizeBooking es)
  else .error (checkBooking (normalizeBooking es))

/-- The example booking document of the experiment block
(pdf.py:505-593): `依頼日`, `パンフレット名／頁` and the first hotel's
`タバコ` are absent (so their defaults get injected). -/
def exampleDoc : List (String × Value) := [
  ("利用代表者", .vdict [
    ("利用代表者名", .vstr "健保 太郎"),
    ("フリガナ", .vstr "ケンポ タロウ"),
    ("性別", .vstr "男"),
    ("勤務先名", .vstr "株式会社○△□"),
    ("代表利用者の方の保険証", .vdict [
      ("記号", .vint 1234),
      ("番号", .vint 56)]),
    ("連絡先電話番号", .vlist [
      .vdict [("番号", .vstr "090-1234-5678"), ("種別", .vstr "携帯")],
      .vdict [("番号", .vstr "0123-45-6789"), ("種別", .vstr "自宅")]])]),
  ("請求書・旅行書類送付先", .vdict [
    ("請求書送付先住所", .vdict [
      ("種別", .vstr "自宅"),
      ("郵便番号", .vstr "123-4567"),
      ("住所", .vstr "東京都港区○△□1-2-3")]),
    ("旅行書類等送付先住所", .vdict [
      ("種別", .vstr "勤務先"),
      ("郵便番号", .vstr "345-6789"),
      ("住所", .vstr "東京都港区○△□4-5-6")])]),
  ("利用希望コース", .vdict [
    ("旅行期間", .vdict [
      ("開始日", .vdate ⟨2019, 1, 15⟩),
      ("終了日", .vdate ⟨2019, 1, 18⟩)]),
    ("ツアーコード", .vstr "UX5600A"),
    ("ツアー名", .vstr "ステイ札幌2・3・4日間"),
    ("利用ホテル", .vlist [
      .vdict [
        ("宿泊開始日", .vdate ⟨2019, 1, 15⟩),
        ("泊数", .vint 1),
        ("ホテル名", .vstr "ホテルAAA"),
        ("食事", .vstr "食事なし")],
      .vdict [
        ("宿泊開始日", .vdate ⟨2019, 1, 16⟩),
        ("泊数", .vint 1),
        ("ホテル名", .vstr "ホテルBBB"),
        ("食事", .vstr "朝夕食"),
        ("タバコ", .vstr "禁煙")],
      .vdict [
        ("宿泊開始日", .vdate ⟨2019, 1, 17⟩),
        ("泊数", .vint 1),
        ("ホテル名", .vstr "ホテルCCC"),
        ("食事", .vstr "朝食"),
        ("タバコ", .vstr "喫煙")]]),
    ("参加人数", .vdict [
      ("大人", .vint 3),
      ("子供", .vint 1),
      ("幼児", .vint 1)])])]

/-- The normalized form of `exampleDoc`. -/
def exampleNorm : List (String × Value) := normalizeBooking exampleDoc

/-- `exampleDoc` with the two independent required fields
`利用代表者名` and `フリガナ` removed from `利用代表者`. -/
def docMissingTwoFields : List (String × Value) :=
  mapEntry exampleDoc "利用代表者"
    (fun v =>
      match v with
      | .vdict es => .vdict (es.filter
          (fun kv => kv.1 ≠ "利用代表者名" && kv.1 ≠ "フリガナ"))
      | w => w)

/-! ## Helper lemmas -/

/-- The `依頼日` node of the position registry, as the era formatter
receives it. -/
def bookingDateNode : PosNode := .dict [
  ("heisei_year", .leaf (mkPos 62 747 9 0)),
  ("month", .leaf (mkPos 84 747 9 0)),
  ("day", .leaf (mkPos 104 747 9 0))]

/-- If the selected value is among the items and its position is
registered, the selection scan places exactly one mark there. -/
theorem selectionScan_of_mem {v : String} {ps : List (String × PosNode)} {p : DrawingPosition}
    (items : List String) (hmem : v ∈ items) (hl : lookupEntry v ps = some (.leaf p)) :
    selectionScan v ps items = .ok [⟨"○", p⟩] := by
  induction items with
  | nil => cases hmem
  | cons a rest ih =>
    by_cases hva : v = a
    · subst hva
      simp [selectionScan, subPos, hl]
    · rcases List.mem_cons.mp hmem with h | h
      · exact absurd h hva
      · simpa [selectionScan, hva] using ih h

/-- A value not among the items falls through the scan to the raised
`FormatError`. -/
theorem selectionScan_of_not_mem {v : String} {ps : List (String × PosNode)}
    (items : List String) (hmem : v ∉ items) :
    selectionScan v ps items = .error (.formatError "value is not among the selectable items") := by
  induction items with
  | nil => rfl
  | cons a rest ih =>
    have hva : v ≠ a := fun h => hmem (h ▸ List.mem_cons_self a rest)
    have hrest : v ∉ rest := fun h => hmem (List.mem_cons_of_mem a h)
    simpa [selectionScan, hva] using ih hrest

/-- A segment's placements: each plan entry resolved successfully, in
order. -/
def SegmentOk (d : Value) (es : List PlanEntry) (outs : List (List TextOnPage)) : Prop :=
  List.Forall₂ (fun (e : PlanEntry) o => create_texts d e.1 e.2 = .ok o) es outs

/-- `resolvePlan` succeeds exactly when every entry of the segment
succeeds, and then returns the concatenation of the entries' outputs in
plan order. -/
theorem resolvePlan_ok_iff (d : Value) (es : List PlanEntry) (ts : List TextOnPage) :
    resolvePlan d es = .ok ts ↔ ∃ outs, SegmentOk d es outs ∧ ts = outs.flatten := by
  induction es generalizing ts with
  | nil =>
    constructor
    · intro h
      cases h
      exact ⟨[], List.Forall₂.nil, rfl⟩
    · rintro ⟨outs, hf, rfl⟩
      cases hf
      rfl
  | cons e rest ih =>
    obtain ⟨keys, f⟩ := e
    constructor
    · intro h
      cases hc : create_texts d keys f with
      | error err => rw [resolvePlan, hc] at h; cases h
      | ok t =>
        cases hr : resolvePlan d rest with
        | error err => rw [resolvePlan, hc, hr] at h; cases h
        | ok rs =>
          rw [resolvePlan, hc, hr] at h
          obtain ⟨outs, hf, rfl⟩ := (ih rs).mp hr
          cases h
          exact ⟨t :: outs, List.Forall₂.cons hc hf, by simp⟩
    · rintro ⟨outs, hf, rfl⟩
      rcases hf with _ | ⟨hc, hf'⟩
      rw [resolvePlan, hc, (ih _).mpr ⟨_, hf', rfl⟩]
      simp

/-- Splitting a successful resolution of an appended segment. -/
theorem resolvePlan_append_ok {d : Value} {l1 l2 : List PlanEntry} {ts : List TextOnPage}
    (h : resolvePlan d (l1 ++ l2) = .ok ts) :
    ∃ t1 t2, resolvePlan d l1 = .ok t1 ∧ resolvePlan d l2 = .ok t2 ∧ ts = t1 ++ t2 := by
  induction l1 generalizing ts with
  | nil => exact ⟨[], ts, rfl, h, rfl⟩
  | cons e rest ih =>
    obtain ⟨keys, f⟩ := e
    cases hc : create_texts d keys f with
    | error err => rw [List.cons_append, resolvePlan, hc] at h; cases h
    | ok t =>
      cases hr : resolvePlan d (rest ++ l2) with
      | error err => rw [List.cons_append, resolvePlan, hc, hr] at h; cases h
      | ok rs =>
        rw [List.cons_append, resolvePlan, hc, hr] at h
        cases h
        obtain ⟨t1, t2, h1, h2, rfl⟩ := ih hr
        exact ⟨t ++ t1, t2, by rw [resolvePlan, hc, h1], h2, by simp⟩

/-- A successful resolution of the per-index expansion of a repeated
section decomposes into one placement group per index, in index order. -/
theorem resolvePlan_flatMap_range {d : Value} (g : Nat → List PlanEntry) (n : Nat)
    {ts : List TextOnPage} (h : resolvePlan d ((List.range n).flatMap g) = .ok ts) :
    ∃ groups : List (List TextOnPage), groups.length = n ∧ ts = groups.flatten ∧
      ∀ i, i < n → ∃ gi, groups[i]? = some gi ∧ resolvePlan d (g i) = .ok gi := by
  induction n generalizing ts with
  | zero =>
    cases h
    exact ⟨[], rfl, rfl, fun i hi => absurd hi (by omega)⟩
  | succ n ih =>
    rw [List.range_succ, List.flatMap_append] at h
    obtain ⟨t1, t2, h1, h2, rfl⟩ := resolvePlan_append_ok h
    simp only [List.flatMap_cons, List.flatMap_nil, List.append_nil] at h2
    obtain ⟨groups, hlen, rfl, hidx⟩ := ih h1
    refine ⟨groups ++ [t2], by simp [hlen], by simp, fun i hi => ?_⟩
    by_cases hin : i < n
    · obtain ⟨gi, hg, hr⟩ := hidx i hin
      refine ⟨gi, ?_, hr⟩
      rw [List.getElem?_append, if_pos (by omega : i < groups.length)]
      exact hg
    · have : i = n := by omega
      subst this
      refine ⟨t2, ?_, h2⟩
      rw [List.getElem?_append, if_neg (by omega)]
      simp [hlen]

theorem lookupEntry_append {α : Type} (name : String) (xs ys : List (String × α)) :
    lookupEntry name (xs ++ ys) =
      match lookupEntry name xs with
      | some v => some v
      | none => lookupEntry name ys := by
  induction xs with
  | nil => rfl
  | cons kv rest ih =>
    obtain ⟨k, v⟩ := kv
    by_cases h : k = name <;> simp [lookupEntry, h, ih]

/-- Injecting a default for an already-present key is a no-op. -/
theorem withDefault_of_isSome {es : List (String × Value)} {name : String} (v : Value)
    (h : (lookupEntry name es).isSome) : withDefault es name v = es := by
  simp [withDefault, h]

/-- After injecting a default the key is present. -/
theorem lookupEntry_withDefault_isSome (es : List (String × Value)) (name : String) (v : Value) :
    (lookupEntry name (withDefault es name v)).isSome := by
  unfold withDefault
  split
  next h => exact h
  next h =>
    rw [lookupEntry_append]
    cases hl : lookupEntry name es with
    | some w => simp
    | none => simp [lookupEntry]

/-- Injecting one default cannot remove another key. -/
theorem lookupEntry_isSome_withDefault {es : List (String × Value)} {m : String}
    (name : String) (v : Value) (h : (lookupEntry m es).isSome) :
    (lookupEntry m (withDefault es name v)).isSome := by
  unfold withDefault
  split
  next => exact h
  next =>
    rw [lookupEntry_append]
    cases hl : lookupEntry m es with
    | some w => simp
    | none => rw [hl] at h; cases h

/-- Normalizing one entry leaves the lookup of a different key alone. -/
theorem lookupEntry_mapEntry_ne {m name : String} (es : List (String × Value))
    (f : Value → Value) (h : m ≠ name) :
    lookupEntry m (mapEntry es name f) = lookupEntry m es := by
  induction es with
  | nil => rfl
  | cons kv rest ih =>
    obtain ⟨k, v⟩ := kv
    rw [mapEntry]
    by_cases hk : k = name
    · have hkm : ¬k = m := fun hc => h (hc ▸ hk)
      rw [if_pos hk, lookupEntry, if_neg hkm, lookupEntry, if_neg hkm, ih]
    · rw [if_neg hk, lookupEntry, lookupEntry]
      by_cases hm : k = m
      · rw [if_pos hm, if_pos hm]
      · rw [if_neg hm, if_neg hm, ih]

theorem mapEntry_append (xs ys : List (String × Value)) (name : String) (f : Value → Value) :
    mapEntry (xs ++ ys) name f = mapEntry xs name f ++ mapEntry ys name f := by
  induction xs with
  | nil => rfl
  | cons kv rest ih =>
    obtain ⟨k, v⟩ := kv
    rw [List.cons_append, mapEntry, mapEntry]
    by_cases hk : k = name
    · rw [if_pos hk, if_pos hk, ih, List.cons_append]
    · rw [if_neg hk, if_neg hk, ih, List.cons_append]

/-- Normalizing one entry commutes with injecting a default for another. -/
theorem mapEntry_withDefault_ne (es : List (String × Value)) {name m : String}
    (f : Value → Value) (v : Value) (h : name ≠ m) :
    mapEntry (withDefault es m v) name f = withDefault (mapEntry es name f) m v := by
  unfold withDefault
  rw [lookupEntry_mapEntry_ne es f (Ne.symm h)]
  split
  next => rfl
  next => rw [mapEntry_append]; simp [mapEntry, Ne.symm h]

theorem mapEntry_mapEntry_same (es : List (String × Value)) (name : String)
    (f g : Value → Value) :
    mapEntry (mapEntry es name f) name g = mapEntry es name (fun v => g (f v)) := by
  induction es with
  | nil => rfl
  | cons kv rest ih =>
    obtain ⟨k, v⟩ := kv
    rw [mapEntry]
    by_cases hk : k = name
    · rw [if_pos hk, mapEntry, if_pos hk, mapEntry, if_pos hk, ih]
    · rw [if_neg hk, mapEntry, if_neg hk, mapEntry, if_neg hk, ih]

theorem mapEntry_congr (es : List (String × Value)) (name : String) {f g : Value → Value}
    (h : ∀ v, f v = g v) : mapEntry es name f = mapEntry es name g := by
  induction es with
  | nil => rfl
  | cons kv rest ih =>
    obtain ⟨k, v⟩ := kv
    rw [mapEntry, mapEntry]
    by_cases hk : k = name
    · rw [if_pos hk, if_pos hk, h, ih]
    · rw [if_neg hk, if_neg hk, ih]

theorem mapEntry_comm_ne (es : List (String × Value)) {n m : String}
    (f g : Value → Value) (h : n ≠ m) :
    mapEntry (mapEntry es n f) m g = mapEntry (mapEntry es m g) n f := by
  induction es with
  | nil => rfl
  | cons kv rest ih =>
    obtain ⟨k, v⟩ := kv
    rw [mapEntry, mapEntry]
    by_cases hn : k = n
    · have hm : ¬k = m := fun hc => h ((hn ▸ hc : (n : String) = m))
      rw [if_pos hn, if_neg hm, mapEntry, if_neg hm, mapEntry, if_pos hn, ih]
    · by_cases hm : k = m
      · rw [if_neg hn, if_pos hm, mapEntry, if_pos hm, mapEntry, if_neg hn, ih]
      · rw [if_neg hn, if_neg hm, mapEntry, if_neg hm, mapEntry, if_neg hn, ih]

theorem withDefault_withDefault_same (es : List (String × Value)) (name : String) (v : Value) :
    withDefault (withDefault es name v) name v = withDefault es name v :=
  withDefault_of_isSome v (lookupEntry_withDefault_isSome es name v)

theorem normalizeHotelItem_idem (v : Value) :
    normalizeHotelItem (normalizeHotelItem v) = normalizeHotelItem v := by
  cases v <;> simp [normalizeHotelItem, withDefault_withDefault_same]

theorem normalizeHotelListVal_idem (v : Value) :
    normalizeHotelListVal (normalizeHotelListVal v) = normalizeHotelListVal v := by
  cases v <;> simp [normalizeHotelListVal, normalizeHotelItem_idem]

theorem normalizeSanka_idem (v : Value) :
    normalizeSanka (normalizeSanka v) = normalizeSanka v := by
  cases v with
  | vdict es =>
    simp only [normalizeSanka]
    congr 1
    rw [withDefault_of_isSome (Value.vint 1)
        (lookupEntry_isSome_withDefault "幼児" (Value.vint 0)
          (lookupEntry_isSome_withDefault "子供" (Value.vint 0)
            (lookupEntry_withDefault_isSome es "大人" (Value.vint 1))))]
    rw [withDefault_of_isSome (Value.vint 0)
        (lookupEntry_isSome_withDefault "幼児" (Value.vint 0)
          (lookupEntry_withDefault_isSome (withDefault es "大人" (Value.vint 1)) "子供" (Value.vint 0)))]
    exact withDefault_of_isSome (Value.vint 0) (lookupEntry_withDefault_isSome _ "幼児" (Value.vint 0))
  | vnone => rfl
  | vstr s => rfl
  | vint n => rfl
  | vdate d => rfl
  | vlist l => rfl

theorem normalizeCourse_idem (v : Value) :
    normalizeCourse (normalizeCourse v) = normalizeCourse v := by
  cases v with
  | vdict es =>
    simp only [normalizeCourse]
    congr 1
    rw [mapEntry_withDefault_ne _ _ _ (by decide : ("利用ホテル" : String) ≠ "パンフレット名／頁"),
        mapEntry_withDefault_ne _ _ _ (by decide : ("参加人数" : String) ≠ "パンフレット名／頁"),
        withDefault_withDefault_same]
    congr 1
    rw [mapEntry_comm_ne (mapEntry es "利用ホテル" normalizeHotelListVal) normalizeSanka
        normalizeHotelListVal (by decide : ("参加人数" : String) ≠ "利用ホテル")]
    rw [mapEntry_mapEntry_same, mapEntry_congr _ _ (fun w => normalizeSanka_idem w)]
    congr 1
    rw [mapEntry_mapEntry_same]
    exact mapEntry_congr _ _ (fun w => normalizeHotelListVal_idem w)
  | vnone => rfl
  | vstr s => rfl
  | vint n => rfl
  | vdate d => rfl
  | vlist l => rfl

/-- Normalization is idempotent: a second pass injects nothing new. -/
theorem normalizeBooking_idem (es : List (String × Value)) :
    normalizeBooking (normalizeBooking es) = normalizeBooking es := by
  unfold normalizeBooking
  rw [mapEntry_withDefault_ne _ _ _ (by decide : ("利用希望コース" : String) ≠ "依頼日"),
      withDefault_withDefault_same, mapEntry_mapEntry_same]
  congr 1
  exact mapEntry_congr _ _ (fun w => normalizeCourse_idem w)

/-- Looking up the very key a normalizer was mapped over. -/
theorem lookupEntry_mapEntry_same (es : List (String × Value)) (name : String)
    (f : Value → Value) :
    lookupEntry name (mapEntry es name f) = (lookupEntry name es).map f := by
  induction es with
  | nil => rfl
  | cons kv rest ih =>
    obtain ⟨k, v⟩ := kv
    rw [mapEntry]
    by_cases hk : k = name
    · rw [if_pos hk, lookupEntry, if_pos hk, lookupEntry, if_pos hk]
      rfl
    · rw [if_neg hk, lookupEntry, if_neg hk, lookupEntry, if_neg hk, ih]

/-- Injecting a default for one key leaves other lookups alone. -/
theorem lookupEntry_withDefault_ne {m name : String} (es : List (String × Value)) (v : Value)
    (h : m ≠ name) :
    lookupEntry m (withDefault es name v) = lookupEntry m es := by
  unfold withDefault
  split
  next => rfl
  next =>
    rw [lookupEntry_append]
    cases hl : lookupEntry m es with
    | some w => rfl
    | none => simp [lookupEntry, Ne.symm h]

/-- A passing required string field is present as a string. -/
theorem checkString_nil_lookup {path : List Key} {es : List (String × Value)} {name : String}
    {a : Option (List String)} {r : Option Rgx} {m : Option Nat}
    (h : checkString path true es name a r m = []) :
    ∃ s, lookupEntry name es = some (.vstr s) := by
  unfold checkString at h
  cases hl : lookupEntry name es with
  | none => rw [hl] at h; simp at h
  | some v =>
    rw [hl] at h
    cases v with
    | vstr s => exact ⟨s, rfl⟩
    | vnone => simp at h
    | vint n => simp at h
    | vdate d => simp at h
    | vdict es2 => simp at h
    | vlist l => simp at h

/-- A passing required integer field is present as an integer. -/
theorem checkInt_nil_lookup {path : List Key} {es : List (String × Value)} {name : String}
    {minv : Option Int} (h : checkInt path true es name minv = []) :
    ∃ k, lookupEntry name es = some (.vint k) := by
  unfold checkInt at h
  cases hl : lookupEntry name es with
  | none => rw [hl] at h; simp at h
  | some v =>
    rw [hl] at h
    cases v with
    | vint k => exact ⟨k, rfl⟩
    | vnone => simp at h
    | vstr s => simp at h
    | vdate d => simp at h
    | vdict es2 => simp at h
    | vlist l => simp at h

/-- A passing required date field is present as a date. -/
theorem checkDate_nil_lookup {path : List Key} {es : List (String × Value)} {name : String}
    (h : checkDate path true es name = []) :
    ∃ dd, lookupEntry name es = some (.vdate dd) := by
  unfold checkDate at h
  cases hl : lookupEntry name es with
  | none => rw [hl] at h; simp at h
  | some v =>
    rw [hl] at h
    cases v with
    | vdate dd => exact ⟨dd, rfl⟩
    | vnone => simp at h
    | vstr s => simp at h
    | vint n => simp at h
    | vdict es2 => simp at h
    | vlist l => simp at h

/-- A passing required nested-dict field is present as a dict whose
sub-checks pass. -/
theorem checkDict_nil {path : List Key} {es : List (String × Value)} {name : String}
    {sub : List Key → List (String × Value) → List VError}
    (h : checkDict path true es name sub = []) :
    ∃ ds, lookupEntry name es = some (.vdict ds) ∧ sub (path ++ [.str name]) ds = [] := by
  unfold checkDict at h
  cases hl : lookupEntry name es with
  | none => rw [hl] at h; simp at h
  | some v =>
    rw [hl] at h
    cases v with
    | vdict ds => exact ⟨ds, rfl, h⟩
    | vnone => simp at h
    | vstr s => simp at h
    | vint n => simp at h
    | vdate d => simp at h
    | vlist l => simp at h

/-- Passing per-item checks pass at every index. -/
theorem checkItems_nil {subItem : List Key → Value → List VError} {path : List Key}
    {name : String} :
    ∀ (start : Nat) (items : List Value), checkItems subItem path name start items = [] →
      ∀ j, (hj : j < items.length) →
        subItem (path ++ [.str name, .idx (start + j)]) (items.get ⟨j, hj⟩) = [] := by
  intro start items
  induction items generalizing start with
  | nil => intro _ j hj; exact absurd hj (Nat.not_lt_zero j)
  | cons v rest ih =>
    intro h j hj
    unfold checkItems at h
    rw [List.append_eq_nil] at h
    obtain ⟨h1, h2⟩ := h
    cases j with
    | zero => simpa using h1
    | succ j' =>
      have h' := ih (start + 1) h2 j' (Nat.lt_of_succ_lt_succ hj)
      have harith : start + 1 + j' = start + (j' + 1) := by omega
      rw [harith] at h'
      simpa using h'

/-- A passing required list field is present as a list within the length
bounds, every item passing its checks. -/
theorem checkList_nil {path : List Key} {es : List (String × Value)} {name : String}
    {minl maxl : Nat} {subItem : List Key → Value → List VError}
    (h : checkList path true es name minl maxl subItem = []) :
    ∃ items, lookupEntry name es = some (.vlist items) ∧ minl ≤ items.length ∧
      items.length ≤ maxl ∧
      ∀ j, (hj : j < items.length) →
        subItem (path ++ [.str name, .idx j]) (items.get ⟨j, hj⟩) = [] := by
  unfold checkList at h
  cases hl : lookupEntry name es with
  | none => rw [hl] at h; simp at h
  | some v =>
    rw [hl] at h
    cases v with
    | vlist items =>
      rw [List.append_eq_nil, List.append_eq_nil] at h
      obtain ⟨⟨hmin, hmax⟩, hitems⟩ := h
      refine ⟨items, rfl, ?_, ?_, ?_⟩
      · by_contra hc
        rw [if_neg hc] at hmin
        cases hmin
      · by_contra hc
        rw [if_neg hc] at hmax
        cases hmax
      · intro j hj
        simpa using checkItems_nil 0 items hitems j hj
    | vnone => simp at h
    | vstr s => simp at h
    | vint n => simp at h
    | vdate d => simp at h
    | vdict es2 => simp at h

/-- A passing list item that must be a dict is a dict whose sub-checks
pass. -/
theorem checkDictItem_nil {sub : List Key → List (String × Value) → List VError}
    {path : List Key} {v : Value} (h : checkDictItem sub path v = []) :
    ∃ ds, v = .vdict ds ∧ sub path ds = [] := by
  unfold checkDictItem at h
  cases v with
  | vdict ds => exact ⟨ds, rfl, h⟩
  | vnone => simp at h
  | vstr s => simp at h
  | vint n => simp at h
  | vdate d => simp at h
  | vlist l => simp at h

/-- Inversion of a successful validation: the result is the normalized
document and every check passed. -/
theorem validate_ok_inv {es n : List (String × Value)}
    (h : validate_booking_data es = .ok n) :
    n = normalizeBooking es ∧ checkBooking n = [] := by
  by_cases hc : checkBooking (normalizeBooking es) = []
  · rw [validate_booking_data, if_pos hc] at h
    cases h
    exact ⟨rfl, hc⟩
  · rw [validate_booking_data, if_neg hc] at h
    exact Except.noConfusion h

/-- The hotel-list length of a document, as the resolver's loop reads it
(`len(booking_data['利用希望コース']['利用ホテル'])`). -/
def hotelCount (n : List (String × Value)) : Nat :=
  match get_deep_element (.vdict n) [.str "利用希望コース", .str "利用ホテル"] with
  | some (.vlist items) => items.length
  | _ => 0

/-- Structural facts about a validated document: every data path of the
full field plan resolves, the hotel list has between 1 and 3 elements,
the phone list has exactly 2. -/
theorem validated_doc_facts (es n : List (String × Value))
    (h : validate_booking_data es = .ok n) :
    (∀ e ∈ fullPlan (hotelCount n), (get_deep_element (.vdict n) e.1).isSome) ∧
    (1 ≤ hotelCount n ∧ hotelCount n ≤ 3) ∧
    (∃ phones, get_deep_element (.vdict n) [.str "利用代表者", .str "連絡先電話番号"] =
      some (.vlist phones) ∧ phones.length = 2) ∧
    (∃ hotels, get_deep_element (.vdict n) [.str "利用希望コース", .str "利用ホテル"] =
      some (.vlist hotels) ∧ hotels.length = hotelCount n) := by
  obtain ⟨hnorm, hch⟩ := validate_ok_inv h
  unfold checkBooking at hch
  simp only [List.append_eq_nil] at hch
  obtain ⟨⟨⟨-, hDai⟩, hSofu⟩, hCourse⟩ := hch
  obtain ⟨dai, hdaiL, hdaiC⟩ := checkDict_nil hDai
  unfold checkDaihyosha at hdaiC
  simp only [List.append_eq_nil] at hdaiC
  obtain ⟨⟨⟨⟨⟨hnm, hkana⟩, hsex⟩, hwork⟩, hhoken⟩, hphone⟩ := hdaiC
  obtain ⟨s1, hnm⟩ := checkString_nil_lookup hnm
  obtain ⟨s2, hkana⟩ := checkString_nil_lookup hkana
  obtain ⟨s3, hsex⟩ := checkString_nil_lookup hsex
  obtain ⟨s4, hwork⟩ := checkString_nil_lookup hwork
  obtain ⟨hok, hhokL, hhokC⟩ := checkDict_nil hhoken
  unfold checkHokensho at hhokC
  simp only [List.append_eq_nil] at hhokC
  obtain ⟨hkigo, hbango⟩ := hhokC
  obtain ⟨i1, hkigo⟩ := checkInt_nil_lookup hkigo
  obtain ⟨i2, hbango⟩ := checkInt_nil_lookup hbango
  obtain ⟨phones, hphL, hph2a, hph2b, hphEach⟩ := checkList_nil hphone
  have hplen : phones.length = 2 := Nat.le_antisymm hph2b hph2a
  obtain ⟨p0, hp0v, hp0C⟩ := checkDictItem_nil (hphEach 0 (by omega))
  obtain ⟨p1, hp1v, hp1C⟩ := checkDictItem_nil (hphEach 1 (by omega))
  unfold checkPhoneItem at hp0C hp1C
  simp only [List.append_eq_nil] at hp0C hp1C
  obtain ⟨hp0no, hp0ty⟩ := hp0C
  obtain ⟨hp1no, hp1ty⟩ := hp1C
  obtain ⟨t0, hp0no⟩ := checkString_nil_lookup hp0no
  obtain ⟨k0, hp0ty⟩ := checkString_nil_lookup hp0ty
  obtain ⟨t1, hp1no⟩ := checkString_nil_lookup hp1no
  obtain ⟨k1, hp1ty⟩ := checkString_nil_lookup hp1ty
  have hph0 : phones[0]? = some (.vdict p0) := by
    rw [List.getElem?_eq_getElem (by omega)]
    simpa using hp0v
  have hph1 : phones[1]? = some (.vdict p1) := by
    rw [List.getElem?_eq_getElem (by omega)]
    simpa using hp1v
  obtain ⟨sofu, hsofuL, hsofuC⟩ := checkDict_nil hSofu
  unfold checkSofusaki at hsofuC
  simp only [List.append_eq_nil] at hsofuC
  obtain ⟨haddr1, haddr2⟩ := hsofuC
  obtain ⟨ad1, had1L, had1C⟩ := checkDict_nil haddr1
  obtain ⟨ad2, had2L, had2C⟩ := checkDict_nil haddr2
  unfold checkAddress at had1C had2C
  simp only [List.append_eq_nil] at had1C had2C
  obtain ⟨⟨h1a, h1b⟩, h1c⟩ := had1C
  obtain ⟨⟨h2a, h2b⟩, h2c⟩ := had2C
  obtain ⟨u1, h1a⟩ := checkString_nil_lookup h1a
  obtain ⟨u2, h1b⟩ := checkString_nil_lookup h1b
  obtain ⟨u3, h1c⟩ := checkString_nil_lookup h1c
  obtain ⟨u4, h2a⟩ := checkString_nil_lookup h2a
  obtain ⟨u5, h2b⟩ := checkString_nil_lookup h2b
  obtain ⟨u6, h2c⟩ := checkString_nil_lookup h2c
  obtain ⟨cs, hcsL, hcsC⟩ := checkDict_nil hCourse
  unfold checkCourse at hcsC
  simp only [List.append_eq_nil] at hcsC
  obtain ⟨⟨⟨⟨⟨hkikan, hcode⟩, htname⟩, -⟩, hhotels⟩, hsanka⟩ := hcsC
  obtain ⟨kik, hkikL, hkikC⟩ := checkDict_nil hkikan
  unfold checkRyokoKikan at hkikC
  simp only [List.append_eq_nil] at hkikC
  obtain ⟨hstart, hend⟩ := hkikC
  obtain ⟨d1, hstart⟩ := checkDate_nil_lookup hstart
  obtain ⟨d2, hend⟩ := checkDate_nil_lookup hend
  obtain ⟨c1, hcode⟩ := checkString_nil_lookup hcode
  obtain ⟨c2, htname⟩ := checkString_nil_lookup htname
  obtain ⟨hotels, hhotL, hhot1, hhot3, hhotEach⟩ := checkList_nil hhotels
  obtain ⟨sank, hsankL, -⟩ := checkDict_nil hsanka
  have hIrai : ∃ w, lookupEntry "依頼日" n = some w := by
    rw [hnorm]
    unfold normalizeBooking
    exact Option.isSome_iff_exists.mp (lookupEntry_withDefault_isSome _ _ _)
  obtain ⟨wIrai, hIrai⟩ := hIrai
  have hcsIm : ∃ es0, cs = withDefault
      (mapEntry (mapEntry es0 "利用ホテル" normalizeHotelListVal) "参加人数" normalizeSanka)
      "パンフレット名／頁" (.vstr "") := by
    have hKn : lookupEntry "利用希望コース" n =
        (lookupEntry "利用希望コース" es).map normalizeCourse := by
      rw [hnorm]
      unfold normalizeBooking
      rw [lookupEntry_withDefault_ne _ _ (by decide), lookupEntry_mapEntry_same]
    rw [hcsL] at hKn
    cases hv0 : lookupEntry "利用希望コース" es with
    | none => rw [hv0] at hKn; cases hKn
    | some v0 =>
      rw [hv0] at hKn
      have hv : Value.vdict cs = normalizeCourse v0 := Option.some.inj hKn
      cases v0 with
      | vdict es0 =>
        refine ⟨es0, ?_⟩
        unfold normalizeCourse at hv
        injection hv
      | vnone => cases hv
      | vstr s => cases hv
      | vint k => cases hv
      | vdate d => cases hv
      | vlist l => cases hv
  obtain ⟨es0, hcsEq⟩ := hcsIm
  have hPamph : ∃ w, lookupEntry "パンフレット名／頁" cs = some w := by
    rw [hcsEq]
    exact Option.isSome_iff_exists.mp (lookupEntry_withDefault_isSome _ _ _)
  obtain ⟨wp, hPamph⟩ := hPamph
  have hSankIm : ∃ ss0, sank =
      withDefault (withDefault (withDefault ss0 "大人" (.vint 1)) "子供" (.vint 0)) "幼児" (.vint 0) := by
    have hSn : lookupEntry "参加人数" cs =
        (lookupEntry "参加人数" (mapEntry es0 "利用ホテル" normalizeHotelListVal)).map normalizeSanka := by
      rw [hcsEq, lookupEntry_withDefault_ne _ _ (by decide), lookupEntry_mapEntry_same]
    rw [hsankL] at hSn
    cases hw0 : lookupEntry "参加人数" (mapEntry es0 "利用ホテル" normalizeHotelListVal) with
    | none => rw [hw0] at hSn; cases hSn
    | some w0 =>
      rw [hw0] at hSn
      have hv : Value.vdict sank = normalizeSanka w0 := Option.some.inj hSn
      cases w0 with
      | vdict ss0 =>
        refine ⟨ss0, ?_⟩
        unfold normalizeSanka at hv
        injection hv
      | vnone => cases hv
      | vstr s => cases hv
      | vint k => cases hv
      | vdate d => cases hv
      | vlist l => cases hv
  obtain ⟨ss0, hsankEq⟩ := hSankIm
  have hAdult : ∃ w, lookupEntry "大人" sank = some w := by
    rw [hsankEq]
    exact Option.isSome_iff_exists.mp (lookupEntry_isSome_withDefault _ _
      (lookupEntry_isSome_withDefault _ _ (lookupEntry_withDefault_isSome _ _ _)))
  have hChild : ∃ w, lookupEntry "子供" sank = some w := by
    rw [hsankEq]
    exact Option.isSome_iff_exists.mp (lookupEntry_isSome_withDefault _ _
      (lookupEntry_withDefault_isSome _ _ _))
  have hInfant : ∃ w, lookupEntry "幼児" sank = some w := by
    rw [hsankEq]
    exact Option.isSome_iff_exists.mp (lookupEntry_withDefault_isSome _ _ _)
  obtain ⟨wA, hAdult⟩ := hAdult
  obtain ⟨wC, hChild⟩ := hChild
  obtain ⟨wI, hInfant⟩ := hInfant
  have hHotIm : ∃ items0 : List Value, hotels = items0.map normalizeHotelItem := by
    have hHn : lookupEntry "利用ホテル" cs =
        (lookupEntry "利用ホテル" es0).map normalizeHotelListVal := by
      rw [hcsEq, lookupEntry_withDefault_ne _ _ (by decide),
          lookupEntry_mapEntry_ne _ _ (by decide), lookupEntry_mapEntry_same]
    rw [hhotL] at hHn
    cases hx : lookupEntry "利用ホテル" es0 with
    | none => rw [hx] at hHn; cases hHn
    | some x =>
      rw [hx] at hHn
      have hv : Value.vlist hotels = normalizeHotelListVal x := Option.some.inj hHn
      cases x with
      | vlist items0 =>
        refine ⟨items0, ?_⟩
        unfold normalizeHotelListVal at hv
        injection hv
      | vnone => cases hv
      | vstr s => cases hv
      | vint k => cases hv
      | vdate d => cases hv
      | vdict e => cases hv
  obtain ⟨items0, hhotEq⟩ := hHotIm
  subst hhotEq
  have hHotelFields : ∀ j, (hj : j < (items0.map normalizeHotelItem).length) → ∃ hE,
      (items0.map normalizeHotelItem)[j]? = some (.vdict hE) ∧
      (∃ w, lookupEntry "宿泊開始日" hE = some w) ∧ (∃ w, lookupEntry "泊数" hE = some w) ∧
      (∃ w, lookupEntry "ホテル名" hE = some w) ∧ (∃ w, lookupEntry "食事" hE = some w) ∧
      (∃ w, lookupEntry "タバコ" hE = some w) := by
    intro j hj
    obtain ⟨hE, hEv, hEC⟩ := checkDictItem_nil (hhotEach j hj)
    unfold checkHotelItem at hEC
    simp only [List.append_eq_nil] at hEC
    obtain ⟨⟨⟨⟨hhd, hhn⟩, hhnm⟩, hhm⟩, -⟩ := hEC
    obtain ⟨dd, hhd⟩ := checkDate_nil_lookup hhd
    obtain ⟨nn, hhn⟩ := checkInt_nil_lookup hhn
    obtain ⟨nm, hhnm⟩ := checkString_nil_lookup hhnm
    obtain ⟨ml, hhm⟩ := checkString_nil_lookup hhm
    have hjm : j < items0.length := by
      simpa using hj
    have himg : (items0.map normalizeHotelItem).get ⟨j, hj⟩ =
        normalizeHotelItem (items0.get ⟨j, hjm⟩) := by
      simp
    have hTab : ∃ w, lookupEntry "タバコ" hE = some w := by
      rw [himg] at hEv
      cases hx2 : items0.get ⟨j, hjm⟩ with
      | vdict e0 =>
        rw [hx2] at hEv
        unfold normalizeHotelItem at hEv
        have : withDefault e0 "タバコ" (.vstr "どちらでも") = hE := by injection hEv
        rw [← this]
        exact Option.isSome_iff_exists.mp (lookupEntry_withDefault_isSome _ _ _)
      | vnone => rw [hx2] at hEv; cases hEv
      | vstr s => rw [hx2] at hEv; cases hEv
      | vint k => rw [hx2] at hEv; cases hEv
      | vdate d => rw [hx2] at hEv; cases hEv
      | vlist l => rw [hx2] at hEv; cases hEv
    refine ⟨hE, ?_, ⟨_, hhd⟩, ⟨_, hhn⟩, ⟨_, hhnm⟩, ⟨_, hhm⟩, hTab⟩
    rw [List.getElem?_eq_getElem hj]
    simpa using hEv
  have hcount : hotelCount n = (items0.map normalizeHotelItem).length := by
    unfold hotelCount
    simp [get_deep_element, hcsL, hhotL]
  refine ⟨?_, by rw [hcount]; exact ⟨hhot1, hhot3⟩,
    ⟨phones, by simp [get_deep_element, hdaiL, hphL], hplen⟩,
    ⟨items0.map normalizeHotelItem, by simp [get_deep_element, hcsL, hhotL], hcount.symm⟩⟩
  intro e he
  rw [hcount] at he
  unfold fullPlan at he
  rw [List.mem_append, List.mem_append] at he
  rcases he with (he | he) | he
  · simp only [planHead, List.mem_cons, List.not_mem_nil, or_false] at he
    rcases he with rfl | rfl | rfl | rfl | rfl | rfl | rfl | rfl | rfl | rfl | rfl |
      rfl | rfl | rfl | rfl | rfl | rfl | rfl | rfl | rfl | rfl | rfl <;>
      simp [get_deep_element, hIrai, hdaiL, hnm, hkana, hsex, hwork, hhokL, hkigo, hbango,
        hphL, hph0, hph1, hp0no, hp0ty, hp1no, hp1ty, hsofuL, had1L, h1a, h1b, h1c,
        had2L, h2a, h2b, h2c, hcsL, hkikL, hstart, hend, hcode, htname, hPamph]
  · rw [List.mem_flatMap] at he
    obtain ⟨i, hir, hmem⟩ := he
    rw [List.mem_range] at hir
    obtain ⟨hE, hhoti, hf1, hf2, hf3, hf4, hf5⟩ := hHotelFields i hir
    obtain ⟨w1, hf1⟩ := hf1
    obtain ⟨w2, hf2⟩ := hf2
    obtain ⟨w3, hf3⟩ := hf3
    obtain ⟨w4, hf4⟩ := hf4
    obtain ⟨w5, hf5⟩ := hf5
    simp only [hotelGroup, List.mem_cons, List.not_mem_nil, or_false] at hmem
    rcases hmem with rfl | rfl | rfl | rfl | rfl <;>
      simp [get_deep_element, hcsL, hhotL, hhoti, hf1, hf2, hf3, hf4, hf5]
  · simp only [planTail, List.mem_cons, List.not_mem_nil, or_false] at he
    rcases he with rfl | rfl | rfl <;>
      simp [get_deep_element, hcsL, hsankL, hAdult, hChild, hInfant]

/-- Inversion of a successful full resolution into its four stages. -/
theorem booking_ok_inv {d : Value} {ts : List TextOnPage}
    (h : booking_data_dict_to_texts d = .ok ts) :
    ∃ a hotels b c, resolvePlan d planHead = .ok a ∧ getHotelList d = .ok hotels ∧
      resolvePlan d ((List.range hotels.length).flatMap hotelGroup) = .ok b ∧
      resolvePlan d planTail = .ok c ∧ ts = a ++ (b ++ c) := by
  unfold booking_data_dict_to_texts at h
  split at h
  next e heq => exact Except.noConfusion h
  next a heq1 =>
    split at h
    next e heq => exact Except.noConfusion h
    next hotels heq2 =>
      split at h
      next e heq => exact Except.noConfusion h
      next b heq3 =>
        split at h
        next e heq => exact Except.noConfusion h
        next c heq4 =>
          cases h
          exact ⟨a, hotels, b, c, heq1, heq2, heq3, heq4, rfl⟩

/-! ## Claims -/

/-- C1 (counterexample): the claim states that a date before the epoch
makes the era formatter fail with a `FormatError`; on the code, the date
1987-01-15 makes `create_booking_date_text` succeed and emit the negative
era-year `-1`. -/
theorem era_date_pre_epoch_counterexample :
    create_booking_date_text (.vdate ⟨1987, 1, 15⟩) bookingDateNode =
      .ok [⟨"-1", mkPos 62 747 9 0⟩, ⟨"1", mkPos 84 747 9 0⟩, ⟨"15", mkPos 104 747 9 0⟩] := rfl

/-- C1 (amended): for every calendar date at the booking-date field, the
era formatter converts year `Y` to era-year `Y - 1988` and emits era-year,
month and day at the named sub-positions `heisei_year` / `month` / `day`
of the registry's `依頼日` node; for a date before the epoch it does not
fail but emits the negative era-year. -/
theorem era_date_conversion_amended (y m d : Nat) :
    create_booking_date_text (.vdate ⟨y, m, d⟩) bookingDateNode =
      .ok [⟨toString ((y : Int) - 1988), mkPos 62 747 9 0⟩,
           ⟨toString m, mkPos 84 747 9 0⟩,
           ⟨toString d, mkPos 104 747 9 0⟩] ∧
    get_deep_pos BOOKING_DATA_POSITIONS [.str "依頼日"] = some bookingDateNode :=
  ⟨rfl, rfl⟩

/-- C2: the phone-number formatter splits its input on the fixed
delimiter `-` into exactly as many parts as the position list has
positions (3, as in both registry slots): an input splitting into three
parts yields the parts paired with the positions in original
left-to-right order, and any other part count is a `FormatError`. -/
theorem phone_split_exactness (s : String) (p0 p1 p2 : DrawingPosition) :
    (∀ a b c, splitOnDash s = [a, b, c] →
      create_phone_number_text (.vstr s) (.list [.leaf p0, .leaf p1, .leaf p2]) =
        .ok [⟨a, p0⟩, ⟨b, p1⟩, ⟨c, p2⟩]) ∧
    ((splitOnDash s).length ≠ 3 →
      ∃ msg, create_phone_number_text (.vstr s) (.list [.leaf p0, .leaf p1, .leaf p2]) =
        .error (.formatError msg)) ∧
    (∃ q0 q1 q2, get_deep_pos BOOKING_DATA_POSITIONS
        [.str "利用代表者", .str "連絡先電話番号", .idx 0, .str "番号"] =
      some (.list [.leaf q0, .leaf q1, .leaf q2])) ∧
    (∃ q0 q1 q2, get_deep_pos BOOKING_DATA_POSITIONS
        [.str "利用代表者", .str "連絡先電話番号", .idx 1, .str "番号"] =
      some (.list [.leaf q0, .leaf q1, .leaf q2])) := by
  refine ⟨fun a b c h => by simp [create_phone_number_text, h], fun hne => ?_,
    ⟨_, _, _, rfl⟩, ⟨_, _, _, rfl⟩⟩
  rcases hsplit : splitOnDash s with _ | ⟨a, _ | ⟨b, _ | ⟨c, _ | ⟨e, rest⟩⟩⟩⟩
  · exact ⟨"phone number must split into 3 parts", by simp [create_phone_number_text, hsplit]⟩
  · exact ⟨"phone number must split into 3 parts", by simp [create_phone_number_text, hsplit]⟩
  · exact ⟨"phone number must split into 3 parts", by simp [create_phone_number_text, hsplit]⟩
  · exact absurd (by rw [hsplit]; rfl) hne
  · exact ⟨"phone number must split into 3 parts", by simp [create_phone_number_text, hsplit]⟩

/-- C2 (witness): at the example phone number the three parts land on the
first registry slot's three positions in order, and a 2-part input is a
`FormatError`. -/
theorem phone_split_exactness_witness :
    create_phone_number_text (.vstr "090-1234-5678")
        (.list [.leaf (mkPos 225 668 10 2), .leaf (mkPos 290 668 10 2), .leaf (mkPos 360 668 10 2)]) =
      .ok [⟨"090", mkPos 225 668 10 2⟩, ⟨"1234", mkPos 290 668 10 2⟩, ⟨"5678", mkPos 360 668 10 2⟩] ∧
    ∃ msg, create_phone_number_text (.vstr "12-34")
        (.list [.leaf (mkPos 225 668 10 2), .leaf (mkPos 290 668 10 2), .leaf (mkPos 360 668 10 2)]) =
      .error (.formatError msg) :=
  ⟨(phone_split_exactness "090-1234-5678" _ _ _).1 "090" "1234" "5678" rfl,
   (phone_split_exactness "12-34" _ _ _).2.1 (by decide)⟩

/-- C5: resolution is all-or-nothing — whenever
`booking_data_dict_to_texts` returns a placement sequence, every entry of
the whole field plan (head, one group per hotel index, tail) succeeded
and the result is exactly the concatenation of all their outputs; a
partial sequence is never returned (any failure surfaces as the
originating `Except.error` instead). -/
theorem resolution_all_or_nothing (d : Value) (ts : List TextOnPage)
    (h : booking_data_dict_to_texts d = .ok ts) :
    ∃ hotels outs, getHotelList d = .ok hotels ∧
      SegmentOk d (fullPlan hotels.length) outs ∧ ts = outs.flatten := by
  obtain ⟨a, hotels, b, c, h1, h2, h3, h4, rfl⟩ := booking_ok_inv h
  obtain ⟨o1, f1, rfl⟩ := (resolvePlan_ok_iff d planHead a).mp h1
  obtain ⟨o2, f2, rfl⟩ := (resolvePlan_ok_iff d _ b).mp h3
  obtain ⟨o3, f3, rfl⟩ := (resolvePlan_ok_iff d planTail c).mp h4
  exact ⟨hotels, o1 ++ o2 ++ o3, h2, List.rel_append (List.rel_append f1 f2) f3, by simp⟩

/-- C5 (witness): on the normalized example document the resolver
succeeds and its output is the complete field plan's output. -/
theorem resolution_all_or_nothing_witness :
    ∃ ts, booking_data_dict_to_texts (.vdict exampleNorm) = .ok ts ∧
      ∃ hotels outs, getHotelList (.vdict exampleNorm) = .ok hotels ∧
        SegmentOk (.vdict exampleNorm) (fullPlan hotels.length) outs ∧ ts = outs.flatten :=
  ⟨_, rfl, resolution_all_or_nothing (.vdict exampleNorm) _ rfl⟩

/-- C7: if the document's hotel list has length `n`, the resolver's hotel
segment expands to exactly the indices `0 .. n-1` — every path of the
expanded segment carries an index below `n`, each such index is visited,
and a successful resolution splits into one placement group per actual
list element — even though the position registry defines 3 hotel slots. -/
theorem hotel_list_length_sensitivity (d : Value) (hotels : List Value)
    (hh : getHotelList d = .ok hotels) :
    ((∀ i, (∃ e ∈ (List.range hotels.length).flatMap hotelGroup, .idx i ∈ e.1) ↔
        i < hotels.length) ∧
     (∃ slots, get_deep_pos BOOKING_DATA_POSITIONS [.str "利用希望コース", .str "利用ホテル"] =
        some (.list slots) ∧ slots.length = 3)) ∧
    ∀ ts, booking_data_dict_to_texts d = .ok ts →
      ∃ (a : List TextOnPage) (groups : List (List TextOnPage)) (c : List TextOnPage),
        resolvePlan d planHead = .ok a ∧ resolvePlan d planTail = .ok c ∧
        groups.length = hotels.length ∧ ts = a ++ (groups.flatten ++ c) ∧
        ∀ i, i < hotels.length →
          ∃ gi, groups[i]? = some gi ∧ resolvePlan d (hotelGroup i) = .ok gi := by
  refine ⟨⟨fun i => ⟨?_, ?_⟩, ⟨_, rfl, rfl⟩⟩, fun ts h => ?_⟩
  · rintro ⟨e, he, hie⟩
    rw [List.mem_flatMap] at he
    obtain ⟨j, hj, hem⟩ := he
    rw [List.mem_range] at hj
    have hij : i = j := by
      simp only [hotelGroup, List.mem_cons, List.not_mem_nil, or_false] at hem
      rcases hem with h | h | h | h | h <;> rw [h] at hie <;> simp_all
    omega
  · intro hi
    exact ⟨([.str "利用希望コース", .str "利用ホテル", .idx i, .str "泊数"], create_text),
      List.mem_flatMap.mpr ⟨i, List.mem_range.mpr hi, by simp [hotelGroup]⟩, by simp⟩
  · obtain ⟨a, hotels', b, c, h1, h2, h3, h4, rfl⟩ := booking_ok_inv h
    rw [hh] at h2
    cases h2
    obtain ⟨groups, hlen, rfl, hidx⟩ := resolvePlan_flatMap_range hotelGroup _ h3
    exact ⟨a, groups, c, h1, h4, hlen, rfl, hidx⟩

/-- C7 (witness): the example document has 3 hotels and the resolver
splits its output accordingly. -/
theorem hotel_list_length_sensitivity_witness :
    ∃ hotels, getHotelList (.vdict exampleNorm) = .ok hotels ∧
      ((∀ i, (∃ e ∈ (List.range hotels.length).flatMap hotelGroup, .idx i ∈ e.1) ↔
          i < hotels.length) ∧
       (∃ slots, get_deep_pos BOOKING_DATA_POSITIONS [.str "利用希望コース", .str "利用ホテル"] =
          some (.list slots) ∧ slots.length = 3)) ∧
      ∀ ts, booking_data_dict_to_texts (.vdict exampleNorm) = .ok ts →
        ∃ (a : List TextOnPage) (groups : List (List TextOnPage)) (c : List TextOnPage),
          resolvePlan (.vdict exampleNorm) planHead = .ok a ∧
          resolvePlan (.vdict exampleNorm) planTail = .ok c ∧
          groups.length = hotels.length ∧ ts = a ++ (groups.flatten ++ c) ∧
          ∀ i, i < hotels.length →
            ∃ gi, groups[i]? = some gi ∧ resolvePlan (.vdict exampleNorm) (hotelGroup i) = .ok gi :=
  ⟨_, rfl, hotel_list_length_sensitivity (.vdict exampleNorm) _ rfl⟩

/-- C9: placements at the non-drawable sentinel are kept in the
resolver's output but skipped by the renderer — the drawn placements are
exactly the drawable members of the sequence (in particular nothing is
silently dropped from the sequence itself), and on the example document
the smoking-preference default `どちらでも` yields a `○` placement at
`NoPosition`, present in the output, not drawable, and not drawn. -/
theorem sentinel_suppression :
    (∀ (ts : List TextOnPage) (t : TextOnPage),
      t ∈ drawnTexts ts ↔ t ∈ ts ∧ t.position.is_drawable = true) ∧
    ∃ ts, booking_data_dict_to_texts (.vdict exampleNorm) = .ok ts ∧
      TextOnPage.mk "○" NoPosition ∈ ts ∧
      NoPosition.is_drawable = false ∧
      TextOnPage.mk "○" NoPosition ∉ drawnTexts ts := by
  refine ⟨fun ts t => List.mem_filter, ⟨_, rfl, by decide, rfl, by decide⟩⟩

/-- For any plan expansion with at most 3 hotel indices, every visited
path is present in the static position registry. -/
theorem registry_covers (k : Nat) (h1 : 1 ≤ k) (h3 : k ≤ 3) :
    ∀ e ∈ fullPlan k, (get_deep_pos BOOKING_DATA_POSITIONS e.1).isSome := by
  interval_cases k
  · decide
  · decide
  · decide

/-- C6: for every document accepted by validation, the position registry
covers every path the resolver's plan visits — including the per-index
hotel entries for the document's actual hotel-list length, which the
schema bounds between 1 and 3, matching the registry's 3 hotel slots —
so the position lookup never fails on a plan path. -/
theorem registry_superset_of_plan (es n : List (String × Value))
    (h : validate_booking_data es = .ok n) :
    (∀ e ∈ fullPlan (hotelCount n), (get_deep_pos BOOKING_DATA_POSITIONS e.1).isSome) ∧
    (∃ slots, get_deep_pos BOOKING_DATA_POSITIONS [.str "利用希望コース", .str "利用ホテル"] =
      some (.list slots) ∧ slots.length = 3) ∧
    1 ≤ hotelCount n ∧ hotelCount n ≤ 3 := by
  obtain ⟨-, hb, -, -⟩ := validated_doc_facts es n h
  exact ⟨registry_covers _ hb.1 hb.2, ⟨_, rfl, rfl⟩, hb⟩

/-- C6 (witness): at the normalized example document (3 hotels) the
registry covers the whole plan. -/
theorem registry_superset_of_plan_witness :
    (∀ e ∈ fullPlan (hotelCount exampleNorm),
      (get_deep_pos BOOKING_DATA_POSITIONS e.1).isSome) ∧
    (∃ slots, get_deep_pos BOOKING_DATA_POSITIONS [.str "利用希望コース", .str "利用ホテル"] =
      some (.list slots) ∧ slots.length = 3) ∧
    1 ≤ hotelCount exampleNorm ∧ hotelCount exampleNorm ≤ 3 :=
  registry_superset_of_plan exampleDoc exampleNorm rfl

/-- C10: for every document accepted by validation, every data-tree
lookup of the resolver's plan succeeds (required fields and injected
defaults make every path present), the contact-phone list has exactly 2
elements (so the hard-coded index-0/1 entries resolve), and the hotel
list drives the plan with its actual length. -/
theorem data_lookups_total (es n : List (String × Value))
    (h : validate_booking_data es = .ok n) :
    (∀ e ∈ fullPlan (hotelCount n), (get_deep_element (.vdict n) e.1).isSome) ∧
    (∃ phones, get_deep_element (.vdict n) [.str "利用代表者", .str "連絡先電話番号"] =
      some (.vlist phones) ∧ phones.length = 2) ∧
    (∃ hotels, get_deep_element (.vdict n) [.str "利用希望コース", .str "利用ホテル"] =
      some (.vlist hotels) ∧ hotels.length = hotelCount n) := by
  obtain ⟨ha, -, hc, hd⟩ := validated_doc_facts es n h
  exact ⟨ha, hc, hd⟩

/-- C10 (witness): on the normalized example document every plan path's
data lookup succeeds and the phone list has exactly 2 entries. -/
theorem data_lookups_total_witness :
    (∀ e ∈ fullPlan (hotelCount exampleNorm),
      (get_deep_element (.vdict exampleNorm) e.1).isSome) ∧
    (∃ phones, get_deep_element (.vdict exampleNorm) [.str "利用代表者", .str "連絡先電話番号"] =
      some (.vlist phones) ∧ phones.length = 2) ∧
    (∃ hotels, get_deep_element (.vdict exampleNorm) [.str "利用希望コース", .str "利用ホテル"] =
      some (.vlist hotels) ∧ hotels.length = hotelCount exampleNorm) :=
  data_lookups_total exampleDoc exampleNorm rfl

/-- C3: validation checks the whole tree and the caller receives the
complete collected violation report: validation either succeeds with the
normalized document or fails carrying exactly the full violation list
(which is then nonempty); it fails exactly when at least one violation
exists (an error result exists iff the collected check list is
nonempty); on the example document stripped of the two independent
required name fields, the report contains both missing-field violations,
not just the first. -/
theorem validation_completeness :
    (∀ es, validate_booking_data es = .ok (normalizeBooking es) ∨
      ∃ errs, validate_booking_data es = .error errs ∧ errs ≠ []) ∧
    (∀ es, (∃ errs, validate_booking_data es = .error errs) ↔
      checkBooking (normalizeBooking es) ≠ []) ∧
    (∀ es errs, validate_booking_data es = .error errs →
      errs = checkBooking (normalizeBooking es)) ∧
    (∃ errs, validate_booking_data docMissingTwoFields = .error errs ∧
      VError.missingField [.str "利用代表者", .str "利用代表者名"] ∈ errs ∧
      VError.missingField [.str "利用代表者", .str "フリガナ"] ∈ errs) := by
  refine ⟨fun es => ?_, fun es => ?_, fun es errs h => ?_, ⟨_, rfl, by decide, by decide⟩⟩
  · by_cases hc : checkBooking (normalizeBooking es) = []
    · exact Or.inl (by rw [validate_booking_data, if_pos hc])
    · exact Or.inr ⟨checkBooking (normalizeBooking es),
        by rw [validate_booking_data, if_neg hc], hc⟩
  · by_cases hc : checkBooking (normalizeBooking es) = []
    · constructor
      · rintro ⟨errs, herr⟩
        rw [validate_booking_data, if_pos hc] at herr
        exact Except.noConfusion herr
      · intro hne
        exact absurd hc hne
    · exact ⟨fun _ => hc,
        fun _ => ⟨checkBooking (normalizeBooking es),
          by rw [validate_booking_data, if_neg hc]⟩⟩
  · by_cases hc : checkBooking (normalizeBooking es) = []
    · rw [validate_booking_data, if_pos hc] at h
      exact Except.noConfusion h
    · rw [validate_booking_data, if_neg hc] at h
      cases h
      rfl

/-- C3 (witness): the general success-or-complete-report disjunction at
the stripped example document, the violation-implies-failure direction
applied there (its nonempty check list produces an error result), and
the error branch gives the collected check list. -/
theorem validation_completeness_witness :
    (validate_booking_data docMissingTwoFields = .ok (normalizeBooking docMissingTwoFields) ∨
      ∃ errs, validate_booking_data docMissingTwoFields = .error errs ∧ errs ≠ []) ∧
    (∃ errs, validate_booking_data docMissingTwoFields = .error errs) ∧
    ∃ errs, validate_booking_data docMissingTwoFields = .error errs ∧
      errs = checkBooking (normalizeBooking docMissingTwoFields) :=
  ⟨validation_completeness.1 docMissingTwoFields,
   (validation_completeness.2.1 docMissingTwoFields).mpr (by decide),
   ⟨_, rfl, validation_completeness.2.2.1 docMissingTwoFields _ rfl⟩⟩

/-- C8: validation with default injection is idempotent — validating a
document that a successful validation returned succeeds and returns it
unchanged (normalization injects nothing new on the second pass). -/
theorem default_injection_idempotent (es n : List (String × Value))
    (h : validate_booking_data es = .ok n) : validate_booking_data n = .ok n := by
  have hn : n = normalizeBooking es ∧ checkBooking (normalizeBooking es) = [] := by
    by_cases hc : checkBooking (normalizeBooking es) = []
    · rw [validate_booking_data, if_pos hc] at h
      cases h
      exact ⟨rfl, hc⟩
    · rw [validate_booking_data, if_neg hc] at h
      exact Except.noConfusion h
  obtain ⟨rfl, hch⟩ := hn
  rw [validate_booking_data, normalizeBooking_idem, if_pos hch]

/-- C8 (witness): re-validating the normalized example document returns
it unchanged. -/
theorem default_injection_idempotent_witness :
    validate_booking_data exampleNorm = .ok exampleNorm :=
  default_injection_idempotent exampleDoc exampleNorm rfl

/-- C4: for every selection field, every value of the allowed set whose
position is registered gets exactly one placement with the fixed mark
glyph `○` at the position keyed by the value; a value outside the allowed
set is a `FormatError`. -/
theorem selection_mark_round_trip (items : List String) (v : String)
    (ps : List (String × PosNode)) (p : DrawingPosition) :
    (v ∈ items → lookupEntry v ps = some (.leaf p) →
      generate_selection_creator items (.vstr v) (.dict ps) = .ok [⟨"○", p⟩]) ∧
    (v ∉ items →
      generate_selection_creator items (.vstr v) (.dict ps) =
        .error (.formatError "value is not among the selectable items")) :=
  ⟨fun hmem hl => selectionScan_of_mem items hmem hl,
   fun hmem => selectionScan_of_not_mem items hmem⟩

/-- C4 (witness): for the gender field, the allowed value `男` gives
exactly one `○` at its registered position, and the unmapped value `中`
is a `FormatError`. -/
theorem selection_mark_round_trip_witness :
    generate_selection_creator ["男", "女"] (.vstr "男")
        (.dict [("男", .leaf (mkPos 501 711 16 0)), ("女", .leaf (mkPos 535 711 16 0))]) =
      .ok [⟨"○", mkPos 501 711 16 0⟩] ∧
    generate_selection_creator ["男", "女"] (.vstr "中")
        (.dict [("男", .leaf (mkPos 501 711 16 0)), ("女", .leaf (mkPos 535 711 16 0))]) =
      .error (.formatError "value is not among the selectable items") :=
  ⟨(selection_mark_round_trip ["男", "女"] "男" _ (mkPos 501 711 16 0)).1 (by decide) rfl,
   (selection_mark_round_trip ["男", "女"] "中" _ NoPosition).2 (by decide)⟩

end ItsEasy
